import Mathlib

/-!
Verification of the Intel Tangier (Merrifield) pin-multiplexing driver
(arch/x86/cpu/tangier/pinmux.c).

The driver is embedded shallowly:
* machine addresses and 32-bit register values are `Nat` (readl truncates
  to 32 bits, as the hardware register is 32 bits wide);
* device-tree properties of one pin sub-node are a `PinNode` record in which
  an absent integer property is `none` and an absent boolean property is
  `none` (u-boot's ofnode readers return a default, resp. `false`, then);
* the memory-mapped register file is a function `mem : Nat → Nat` giving the
  current contents at each address, and the result of the SCU IPC round trip
  is an environment parameter `ipcResult` (0 on success, negative errno on
  a channel failure), since both are external to the driver;
* hardware effects are recorded as an explicit trace of `HwAction`s, so that
  theorems can state which reads, direct stores and channel requests a call
  performs and in which order.
-/

/-- BUFCFG_OFFSET from pinmux.c: offset of the per-pin control registers
inside a family's register bank. -/
def BUFCFG_OFFSET : Nat := 0x100

/-- MRFLD_FAMILY_LEN from pinmux.c: address span of one family (1024 bytes). -/
def MRFLD_FAMILY_LEN : Nat := 0x400

/-- MRFLD_PINMODE_MASK from pinmux.c: the 3-bit mode field mask. -/
def MRFLD_PINMODE_MASK : Nat := 0x07

/-- 32-bit bitwise complement, as C's `~` on a `u32` operand. -/
def not32 (x : Nat) : Nat := 0xFFFFFFFF ^^^ (x &&& 0xFFFFFFFF)

/-- Conversion of a C `int` to `u32` (reduction modulo 2^32). -/
def toU32 (x : Int) : Nat := (x % (2 ^ 32 : Int)).toNat

/-- struct mrfld_family from pinmux.c. `regs` is the `void __iomem *` base
address of the family's register bank, kept as a plain machine address. -/
structure MrfldFamily where
  family_number : Nat
  pin_base : Nat
  npins : Nat
  regs : Nat
deriving DecidableEq

/-- MRFLD_FAMILY(b, s, e) initializer from pinmux.c: `npins = e - s + 1`,
`regs` left zero-initialized until mrfld_setup_families runs. -/
def MRFLD_FAMILY (b s e : Nat) : MrfldFamily :=
  { family_number := b, pin_base := s, npins := e - s + 1, regs := 0 }

/-- The static mrfld_families table from pinmux.c:
MRFLD_FAMILY(3, 37, 56) and MRFLD_FAMILY(7, 101, 114). -/
def mrfld_families : List MrfldFamily :=
  [MRFLD_FAMILY 3 37 56, MRFLD_FAMILY 7 101 114]

/-- pin_to_bufno(f, p) from pinmux.c. -/
def pin_to_bufno (f : MrfldFamily) (p : Nat) : Nat := p - f.pin_base

/-- mrfld_get_family from pinmux.c: scan the table in order for the first
family whose range [pin_base, pin_base + npins) contains the pin; NULL
(here `none`) when no family matches. -/
def mrfld_get_family (families : List MrfldFamily) (pin : Nat) : Option MrfldFamily :=
  families.find? (fun f => decide (f.pin_base ≤ pin) && decide (pin < f.pin_base + f.npins))

/-- mrfld_get_bufcfg from pinmux.c: resolve the family, then return
`family->regs + BUFCFG_OFFSET + bufno * 4`; NULL (`none`) when the family
lookup failed. -/
def mrfld_get_bufcfg (families : List MrfldFamily) (pin : Nat) : Option Nat :=
  match mrfld_get_family families pin with
  | none => none
  | some family => some (family.regs + BUFCFG_OFFSET + pin_to_bufno family pin * 4)

/-- mrfld_setup_families from pinmux.c: give every family its register-bank
base `base_addr + family_number * MRFLD_FAMILY_LEN`. -/
def mrfld_setup_families (base_addr : Nat) (families : List MrfldFamily) : List MrfldFamily :=
  families.map (fun family => { family with regs := base_addr + family.family_number * MRFLD_FAMILY_LEN })

/-- Linux errno EINVAL (invalid argument), as used by pinmux.c. -/
def EINVAL : Int := 22

/-- Linux errno ENOTSUPP, as used by pinmux.c for out-of-range modes. -/
def ENOTSUPP : Int := 524

/-- A 32-bit MMIO read: registers are 32 bits wide, so the value read is the
memory contents truncated to 32 bits. -/
def readl (mem : Nat → Nat) (addr : Nat) : Nat := mem addr % 2 ^ 32

/-- mrfld_pinconfig_read_and_update from pinmux.c: read the current register
value and compute `(value & ~mask) | (bits & mask)` in 32-bit arithmetic. -/
def mrfld_pinconfig_read_and_update (mem : Nat → Nat) (bufcfg : Nat) (mask bits : Nat) : Nat :=
  (readl mem bufcfg &&& not32 mask) ||| (bits &&& mask)

/-- mrfld_pinconfig_get_bufcfg from pinmux.c: look up the bufcfg address of a
pin through the syscon device, failing with -EINVAL when the pin belongs to
no configured family. (The syscon lookup itself is an external collaborator
and is modelled as succeeding with the probed pinctrl's family table.) -/
def mrfld_pinconfig_get_bufcfg (families : List MrfldFamily) (pin : Nat) : Except Int Nat :=
  match mrfld_get_bufcfg families pin with
  | none => Except.error (-EINVAL)
  | some addr => Except.ok addr

/-- One observable hardware effect of the driver: a 32-bit MMIO read, a
direct 32-bit MMIO store, or an SCU indirect-write channel request carrying
a target address and the value to store. -/
inductive HwAction where
  | readl (addr : Nat)
  | writel (addr : Nat) (value : Nat)
  | ipcWrite (addr : Nat) (value : Nat)
deriving DecidableEq

/-- Whether a trace contains a direct MMIO store. -/
def hasWritel : List HwAction → Bool
  | [] => false
  | HwAction.writel _ _ :: _ => true
  | _ :: rest => hasWritel rest

/-- Whether a trace contains an SCU indirect-write channel request. -/
def hasIpcWrite : List HwAction → Bool
  | [] => false
  | HwAction.ipcWrite _ _ :: _ => true
  | _ :: rest => hasIpcWrite rest

/-- mrfld_pinconfig_protected from pinmux.c: resolve the bufcfg address,
perform the read-modify-write computation, then hand the new value and the
target address to the SCU via an IPCMSG_INDIRECT_WRITE raw command; the SCU
call's result is the call's result. Returns the C return value together
with the trace of hardware effects. -/
def mrfld_pinconfig_protected (families : List MrfldFamily) (mem : Nat → Nat)
    (ipcResult : Int) (pin mask bits : Nat) : Int × List HwAction :=
  match mrfld_pinconfig_get_bufcfg families pin with
  | Except.error e => (e, [])
  | Except.ok bufcfg =>
    (ipcResult,
     [HwAction.readl bufcfg,
      HwAction.ipcWrite bufcfg (mrfld_pinconfig_read_and_update mem bufcfg mask bits)])

/-- mrfld_pinconfig from pinmux.c: resolve the bufcfg address, perform the
read-modify-write computation, then `writel` the new value back to the same
address and return 0. -/
def mrfld_pinconfig (families : List MrfldFamily) (mem : Nat → Nat)
    (pin mask bits : Nat) : Int × List HwAction :=
  match mrfld_pinconfig_get_bufcfg families pin with
  | Except.error e => (e, [])
  | Except.ok bufcfg =>
    (0,
     [HwAction.readl bufcfg,
      HwAction.writel bufcfg (mrfld_pinconfig_read_and_update mem bufcfg mask bits)])

/-- The recognized properties of one pin configuration sub-node. An integer
property that is absent is `none`; the boolean `protected` property is
`some ()` when present in the node and `none` when absent. -/
structure PinNode where
  pad_offset : Option Int
  mode_func : Option Int
  prot : Option Unit
deriving DecidableEq

/-- ofnode_read_s32_default: the property's value when present, the given
default otherwise. -/
def ofnode_read_s32_default (v : Option Int) (dflt : Int) : Int := v.getD dflt

/-- ofnode_read_bool: true exactly when the boolean property is present. -/
def ofnode_read_bool (v : Option Unit) : Bool := v.isSome

/-- mrfld_pinctrl_cfg_pin from pinmux.c: read `pad-offset` and `mode-func`
with default -1 and fail with -EINVAL when either reads -1; reject with
-ENOTSUPP any mode with a bit outside MRFLD_PINMODE_MASK (the comparison is
done in `u32`, as in C); then dispatch on the `protected` property to the
protected or the direct write path. The `pad_offset` and `mode` ints are
converted to `u32` at the call, as in C. -/
def mrfld_pinctrl_cfg_pin (families : List MrfldFamily) (mem : Nat → Nat)
    (ipcResult : Int) (node : PinNode) : Int × List HwAction :=
  let pad_offset := ofnode_read_s32_default node.pad_offset (-1)
  if pad_offset = -1 then (-EINVAL, [])
  else
    let mode := ofnode_read_s32_default node.mode_func (-1)
    if mode = -1 then (-EINVAL, [])
    else
      let mask := MRFLD_PINMODE_MASK
      if toU32 mode &&& not32 mask ≠ 0 then (-ENOTSUPP, [])
      else
        let is_protected := ofnode_read_bool node.prot
        if is_protected then
          mrfld_pinconfig_protected families mem ipcResult (toU32 pad_offset) mask (toU32 mode)
        else
          mrfld_pinconfig families mem (toU32 pad_offset) mask (toU32 mode)

/-- The subnode loop of tangier_pinctrl_probe: configure every sub-node in
source order, keeping each entry's return value and effect trace; a failed
entry only gets logged and the loop continues with the next entry. -/
def probe_loop (families : List MrfldFamily) (mem : Nat → Nat) (ipcResult : Int) :
    List PinNode → List (Int × List HwAction)
  | [] => []
  | node :: rest =>
    mrfld_pinctrl_cfg_pin families mem ipcResult node :: probe_loop families mem ipcResult rest

/-- tangier_pinctrl_probe from pinmux.c: set up the family table from the
syscon region base, run the configuration loop over all sub-nodes, and
return 0 unconditionally. The result pairs the probe's return value with
the per-entry outcomes of the loop. -/
def tangier_pinctrl_probe (base_addr : Nat) (mem : Nat → Nat) (ipcResult : Int)
    (nodes : List PinNode) : Int × List (Int × List HwAction) :=
  let families := mrfld_setup_families base_addr mrfld_families
  (0, probe_loop families mem ipcResult nodes)

/-! ### Helper lemmas shared by the claim theorems -/

/-- Evaluating mrfld_setup_families on the static table. -/
lemma setup_families_eq (base : Nat) :
    mrfld_setup_families base mrfld_families =
      [⟨3, 37, 20, base + 3 * 1024⟩, ⟨7, 101, 14, base + 7 * 1024⟩] := rfl

/-- Family resolution on the configured table, SD/SDIO range. -/
lemma get_family_sd (base p : Nat) (h1 : 37 ≤ p) (h2 : p < 57) :
    mrfld_get_family (mrfld_setup_families base mrfld_families) p =
      some ⟨3, 37, 20, base + 3 * 1024⟩ := by
  unfold mrfld_get_family mrfld_setup_families mrfld_families MRFLD_FAMILY MRFLD_FAMILY_LEN
  simp only [List.map]
  rw [List.find?_cons_of_pos]
  simp only [Bool.and_eq_true, decide_eq_true_eq]
  omega

/-- Family resolution on the configured table, I2C range. -/
lemma get_family_i2c (base p : Nat) (h1 : 101 ≤ p) (h2 : p < 115) :
    mrfld_get_family (mrfld_setup_families base mrfld_families) p =
      some ⟨7, 101, 14, base + 7 * 1024⟩ := by
  unfold mrfld_get_family mrfld_setup_families mrfld_families MRFLD_FAMILY MRFLD_FAMILY_LEN
  simp only [List.map]
  rw [List.find?_cons_of_neg, List.find?_cons_of_pos]
  · simp only [Bool.and_eq_true, decide_eq_true_eq]; omega
  · simp only [Bool.and_eq_true, decide_eq_true_eq, not_and]; omega

/-- Family resolution on the configured table, outside both ranges. -/
lemma get_family_outside (base p : Nat) (h1 : ¬(37 ≤ p ∧ p < 57)) (h2 : ¬(101 ≤ p ∧ p < 115)) :
    mrfld_get_family (mrfld_setup_families base mrfld_families) p = none := by
  unfold mrfld_get_family mrfld_setup_families mrfld_families MRFLD_FAMILY MRFLD_FAMILY_LEN
  simp only [List.map]
  rw [List.find?_cons_of_neg, List.find?_cons_of_neg]
  · rfl
  · simp only [Bool.and_eq_true, decide_eq_true_eq, not_and]; omega
  · simp only [Bool.and_eq_true, decide_eq_true_eq, not_and]; omega

/-- Bit i of the 32-bit complement of the mode mask. -/
lemma testBit_not32_seven (i : Nat) :
    (not32 7).testBit i = (decide (i < 32) != decide (i < 3)) := by
  have h : not32 7 = (2 ^ 32 - 1) ^^^ (2 ^ 3 - 1) := by decide
  rw [h, Nat.testBit_xor, Nat.testBit_two_pow_sub_one, Nat.testBit_two_pow_sub_one]

/-- Every bit of a mode value below 8 above position 2 is clear. -/
lemma testBit_le_seven (m i : Nat) (hm : m ≤ 7) (h3 : ¬ i < 3) : m.testBit i = false :=
  Nat.testBit_lt_two_pow (lt_of_le_of_lt hm (by
    calc (7 : Nat) < 2 ^ 3 := by norm_num
    _ ≤ 2 ^ i := Nat.pow_le_pow_right (by norm_num) (by omega)))

/-- Bitwise description of the read-modify-write result for the mode mask:
the low three bits come from the mode, every other bit from the old value. -/
lemma rmw_testBit (v m i : Nat) (hv : v < 2 ^ 32) (hm : m ≤ 7) :
    ((v &&& not32 7) ||| m).testBit i = if i < 3 then m.testBit i else v.testBit i := by
  rw [Nat.testBit_or, Nat.testBit_and, testBit_not32_seven]
  by_cases h3 : i < 3
  · have h32 : i < 32 := lt_of_lt_of_le h3 (by norm_num)
    simp [h3, h32]
  · by_cases h32 : i < 32
    · simp [h3, h32, testBit_le_seven m i hm h3]
    · have hvi : v.testBit i = false :=
        Nat.testBit_lt_two_pow (lt_of_lt_of_le hv (Nat.pow_le_pow_right (by norm_num) (by omega)))
      simp [h3, h32, hvi, testBit_le_seven m i hm h3]

/-- The low 3 bits of the read-modify-write result equal the mode. -/
lemma rmw_mod_eight (v m : Nat) (hv : v < 2 ^ 32) (hm : m ≤ 7) :
    ((v &&& not32 7) ||| m) % 8 = m := by
  apply Nat.eq_of_testBit_eq
  intro i
  have h8 : (8 : Nat) = 2 ^ 3 := by norm_num
  rw [h8, Nat.testBit_mod_two_pow, rmw_testBit v m i hv hm]
  by_cases h3 : i < 3
  · simp [h3]
  · simp [h3, testBit_le_seven m i hm h3]

/-- The bits above the low 3 of the read-modify-write result equal the
corresponding bits of the old value. -/
lemma rmw_div_eight (v m : Nat) (hv : v < 2 ^ 32) (hm : m ≤ 7) :
    ((v &&& not32 7) ||| m) / 8 = v / 8 := by
  apply Nat.eq_of_testBit_eq
  intro i
  have h8 : ∀ x : Nat, x / 8 = x >>> 3 := fun x => by
    rw [Nat.shiftRight_eq_div_pow]
  rw [h8, h8, Nat.testBit_shiftRight, Nat.testBit_shiftRight,
    rmw_testBit v m (3 + i) hv hm]
  simp

/-- Masking a mode value below 8 with the 3-bit mask is the identity. -/
lemma and_seven_of_le_seven (m : Nat) (hm : m ≤ 7) : m &&& 7 = m := by
  apply Nat.eq_of_testBit_eq
  intro i
  rw [Nat.testBit_and]
  by_cases h3 : i < 3
  · have h7 : (7 : Nat).testBit i = true := by interval_cases i <;> decide
    simp [h7]
  · simp [testBit_le_seven m i hm h3]

/-- A read through readl always yields a 32-bit value. -/
lemma readl_lt (mem : Nat → Nat) (addr : Nat) : readl mem addr < 2 ^ 32 :=
  Nat.mod_lt _ (by norm_num)

/-! ### Claim theorems -/

/-- C1, counterexample to the claim as stated: the claim quantifies over
every mask, but with mask 0 (and register value 0, mode 1) the code computes
`(v & ~0) | (1 & 0) = 0`, not the claimed `(v & ~0b111) | 1 = 1`; in
particular the low 3 bits of the result are 0, not the mode 1. -/
theorem c1_read_modify_write_counterexample :
    mrfld_pinconfig_read_and_update (fun _ => 0) 0 0 1
      ≠ (readl (fun _ => 0) 0 &&& not32 7) ||| 1 ∧
    mrfld_pinconfig_read_and_update (fun _ => 0) 0 0 1 % 8 ≠ 1 := by
  constructor <;> decide

/-- C1, amended: with the mask the driver actually passes
(MRFLD_PINMODE_MASK = 0b111), for every register file, address and mode
m ≤ 7 the read-modify-write step computes `(v & ~0b111) | m` where v is the
32-bit value read: the low 3 bits of the result equal m and all remaining
bits equal the corresponding bits of v. -/
theorem c1_read_modify_write (mem : Nat → Nat) (addr m : Nat) (hm : m ≤ 7) :
    mrfld_pinconfig_read_and_update mem addr MRFLD_PINMODE_MASK m
      = (readl mem addr &&& not32 7) ||| m ∧
    mrfld_pinconfig_read_and_update mem addr MRFLD_PINMODE_MASK m % 8 = m ∧
    mrfld_pinconfig_read_and_update mem addr MRFLD_PINMODE_MASK m / 8 = readl mem addr / 8 := by
  have hv : readl mem addr < 2 ^ 32 := readl_lt mem addr
  unfold mrfld_pinconfig_read_and_update MRFLD_PINMODE_MASK
  rw [and_seven_of_le_seven m hm]
  exact ⟨rfl, rmw_mod_eight _ _ hv hm, rmw_div_eight _ _ hv hm⟩

/-- C1 witness: the amended theorem applied at a concrete register file
(value 0xDEADBEEF at address 3328) and mode 5. -/
theorem c1_read_modify_write_witness :
    mrfld_pinconfig_read_and_update (fun _ => 0xDEADBEEF) 3328 MRFLD_PINMODE_MASK 5
      = (readl (fun _ => 0xDEADBEEF) 3328 &&& not32 7) ||| 5 ∧
    mrfld_pinconfig_read_and_update (fun _ => 0xDEADBEEF) 3328 MRFLD_PINMODE_MASK 5 % 8 = 5 ∧
    mrfld_pinconfig_read_and_update (fun _ => 0xDEADBEEF) 3328 MRFLD_PINMODE_MASK 5 / 8
      = readl (fun _ => 0xDEADBEEF) 3328 / 8 :=
  c1_read_modify_write (fun _ => 0xDEADBEEF) 3328 5 (by decide)

/-- C8, counterexample to the claim as stated: the first family covers pins
37 through 56 (npins = 20), not through 92 — pin 92 resolves to no family on
the configured table. -/
theorem c8_family_table_counterexample :
    mrfld_get_family (mrfld_setup_families 0 mrfld_families) 92 = none ∧
    mrfld_families = [⟨3, 37, 20, 0⟩, ⟨7, 101, 14, 0⟩] := by
  constructor <;> decide

/-- C8, amended: the table contains exactly two families — family A covering
pins 37 through 56 with base region + 3 × 1024, and family B covering pins
101 through 114 with base region + 7 × 1024; configuring pin 37 targets
address region + 3 × 1024 + 0x100 and configuring pin 101 targets address
region + 7 × 1024 + 0x100. -/
theorem c8_family_table (base : Nat) :
    mrfld_setup_families base mrfld_families =
      [⟨3, 37, 20, base + 3 * 1024⟩, ⟨7, 101, 14, base + 7 * 1024⟩] ∧
    mrfld_get_bufcfg (mrfld_setup_families base mrfld_families) 37
      = some (base + 3 * 1024 + 0x100) ∧
    mrfld_get_bufcfg (mrfld_setup_families base mrfld_families) 101
      = some (base + 7 * 1024 + 0x100) := by
  refine ⟨setup_families_eq base, ?_, ?_⟩
  · unfold mrfld_get_bufcfg
    rw [get_family_sd base 37 (by omega) (by omega)]
    simp [pin_to_bufno, BUFCFG_OFFSET]
  · unfold mrfld_get_bufcfg
    rw [get_family_i2c base 101 (by omega) (by omega)]
    simp [pin_to_bufno, BUFCFG_OFFSET]

/-- A failed family lookup propagates to a NULL bufcfg address. -/
lemma get_bufcfg_eq_none (families : List MrfldFamily) (p : Nat)
    (h : mrfld_get_family families p = none) : mrfld_get_bufcfg families p = none := by
  unfold mrfld_get_bufcfg
  rw [h]

/-- On an entry whose pad-offset and mode parse and whose mode fits the
3-bit mask, mrfld_pinctrl_cfg_pin reduces to the dispatch on `protected`. -/
lemma cfg_pin_eq_dispatch (families : List MrfldFamily) (mem : Nat → Nat) (ipc : Int)
    (p m : Int) (pr : Option Unit) (hp1 : p ≠ -1) (hm1 : m ≠ -1)
    (hmode : toU32 m &&& not32 MRFLD_PINMODE_MASK = 0) :
    mrfld_pinctrl_cfg_pin families mem ipc ⟨some p, some m, pr⟩ =
      if pr.isSome then
        mrfld_pinconfig_protected families mem ipc (toU32 p) MRFLD_PINMODE_MASK (toU32 m)
      else
        mrfld_pinconfig families mem (toU32 p) MRFLD_PINMODE_MASK (toU32 m) := by
  simp only [mrfld_pinctrl_cfg_pin, ofnode_read_s32_default, Option.getD_some, ofnode_read_bool]
  rw [if_neg hp1, if_neg hm1, if_neg (by simp [hmode])]

/-- C2: for every family of the configured table and every pin in that
family's range, the control-register address is
region_base + family_number × 1024 + 0x100 + (pin − pin_base) × 4;
within one family the address grows by exactly 4 per successive pin, and the
first pin of a family targets family.base_address + 0x100. -/
theorem c2_bufcfg_address (base p : Nat) (f : MrfldFamily)
    (hf : f ∈ mrfld_setup_families base mrfld_families)
    (h1 : f.pin_base ≤ p) (h2 : p < f.pin_base + f.npins) :
    mrfld_get_bufcfg (mrfld_setup_families base mrfld_families) p
      = some (base + f.family_number * 1024 + 0x100 + (p - f.pin_base) * 4) ∧
    (p + 1 < f.pin_base + f.npins →
      mrfld_get_bufcfg (mrfld_setup_families base mrfld_families) (p + 1)
        = some (base + f.family_number * 1024 + 0x100 + (p - f.pin_base) * 4 + 4)) ∧
    (p = f.pin_base →
      mrfld_get_bufcfg (mrfld_setup_families base mrfld_families) p
        = some (f.regs + 0x100)) := by
  rw [setup_families_eq base] at hf
  simp only [List.mem_cons, List.not_mem_nil, or_false] at hf
  rcases hf with hf | hf <;> subst hf <;> simp only at h1 h2 <;>
    refine ⟨?_, fun hnext => ?_, fun hbase => ?_⟩
  · unfold mrfld_get_bufcfg
    rw [get_family_sd base p (by omega) (by omega)]
    simp only [pin_to_bufno, BUFCFG_OFFSET, Option.some_inj]
  · unfold mrfld_get_bufcfg
    rw [get_family_sd base (p + 1) (by omega) (by simp only at hnext; omega)]
    simp only [pin_to_bufno, BUFCFG_OFFSET, Option.some_inj]
    omega
  · unfold mrfld_get_bufcfg
    rw [get_family_sd base p (by omega) (by omega)]
    simp only [pin_to_bufno, BUFCFG_OFFSET, Option.some_inj]
    simp only at hbase
    omega
  · unfold mrfld_get_bufcfg
    rw [get_family_i2c base p (by omega) (by omega)]
    simp only [pin_to_bufno, BUFCFG_OFFSET, Option.some_inj]
  · unfold mrfld_get_bufcfg
    rw [get_family_i2c base (p + 1) (by omega) (by simp only at hnext; omega)]
    simp only [pin_to_bufno, BUFCFG_OFFSET, Option.some_inj]
    omega
  · unfold mrfld_get_bufcfg
    rw [get_family_i2c base p (by omega) (by omega)]
    simp only [pin_to_bufno, BUFCFG_OFFSET, Option.some_inj]
    simp only at hbase
    omega

/-- C2 witness: the address theorem applied at region base 0 to pin 38 of
the SD/SDIO family (address 0 + 3 × 1024 + 0x100 + 1 × 4 = 3332). -/
theorem c2_bufcfg_address_witness :
    mrfld_get_bufcfg (mrfld_setup_families 0 mrfld_families) 38
      = some (0 + 3 * 1024 + 0x100 + (38 - 37) * 4) := by
  have h := (c2_bufcfg_address 0 38 ⟨3, 37, 20, 0 + 3 * 1024⟩
    (by rw [setup_families_eq]; simp) (by norm_num) (by norm_num)).1
  simpa using h

/-- C4: every pin inside a configured family's range resolves to that
family; the boundary pins one below each pin_base (36, 100) and at each
pin_base + pin_count (57, 115), none of which any neighbour covers, resolve
to NotFound; and an unresolvable pin is a per-entry outcome — the entry
itself returns -EINVAL with no hardware effect and the surrounding probe
pass still returns 0. -/
theorem c4_family_resolution (base p : Nat) :
    (∀ f, f ∈ mrfld_setup_families base mrfld_families →
       f.pin_base ≤ p → p < f.pin_base + f.npins →
       mrfld_get_family (mrfld_setup_families base mrfld_families) p = some f) ∧
    (p = 36 ∨ p = 57 ∨ p = 100 ∨ p = 115 →
       mrfld_get_family (mrfld_setup_families base mrfld_families) p = none) ∧
    (∀ (mem : Nat → Nat) (ipc : Int) (pid : Int), 0 ≤ pid → toU32 pid = p →
       mrfld_get_family (mrfld_setup_families base mrfld_families) p = none →
       mrfld_pinctrl_cfg_pin (mrfld_setup_families base mrfld_families) mem ipc
           ⟨some pid, some 1, none⟩ = (-EINVAL, []) ∧
       (tangier_pinctrl_probe base mem ipc [⟨some pid, some 1, none⟩]).1 = 0) := by
  refine ⟨?_, ?_, ?_⟩
  · intro f hf hlo hhi
    rw [setup_families_eq base] at hf
    simp only [List.mem_cons, List.not_mem_nil, or_false] at hf
    rcases hf with hf | hf <;> subst hf <;> simp only at hlo hhi
    · exact get_family_sd base p (by omega) (by omega)
    · exact get_family_i2c base p (by omega) (by omega)
  · intro hb
    exact get_family_outside base p (by omega) (by omega)
  · intro mem ipc pid hpos hcast hnone
    constructor
    · rw [cfg_pin_eq_dispatch _ _ _ _ _ _ (by omega) (by norm_num) (by decide)]
      simp only [Option.isSome_none, Bool.false_eq_true, if_false]
      unfold mrfld_pinconfig mrfld_pinconfig_get_bufcfg
      rw [hcast, get_bufcfg_eq_none _ _ hnone]
    · rfl

/-- C4 witness: pin 37 resolves to the SD/SDIO family, pin 57 resolves to no
family, and the entry for (unresolvable) pin 57 returns -EINVAL while the
probe pass containing it returns 0. -/
theorem c4_family_resolution_witness :
    mrfld_get_family (mrfld_setup_families 0 mrfld_families) 37
      = some ⟨3, 37, 20, 3072⟩ ∧
    mrfld_get_family (mrfld_setup_families 0 mrfld_families) 57 = none ∧
    mrfld_pinctrl_cfg_pin (mrfld_setup_families 0 mrfld_families) (fun _ => 0) 0
        ⟨some 57, some 1, none⟩ = (-EINVAL, []) ∧
    (tangier_pinctrl_probe 0 (fun _ => 0) 0 [⟨some 57, some 1, none⟩]).1 = 0 := by
  refine ⟨?_, ?_, ?_, ?_⟩
  · exact (c4_family_resolution 0 37).1 ⟨3, 37, 20, 3072⟩ (by decide) (by decide) (by decide)
  · exact (c4_family_resolution 0 57).2.1 (by omega)
  · exact ((c4_family_resolution 0 57).2.2 (fun _ => 0) 0 57 (by omega) (by decide)
      ((c4_family_resolution 0 57).2.1 (by omega))).1
  · exact ((c4_family_resolution 0 57).2.2 (fun _ => 0) 0 57 (by omega) (by decide)
      ((c4_family_resolution 0 57).2.1 (by omega))).2

/-- C3: on a parseable entry whose mode fits the mask and whose pin
resolves, a present `protected` property routes the new value through the
SCU indirect-write channel request with no direct MMIO store, while an
absent `protected` property (which reads as false) performs a direct MMIO
store of the new value with no channel request. -/
theorem c3_write_path_selection (families : List MrfldFamily) (mem : Nat → Nat)
    (ipc : Int) (node : PinNode) (p m : Int) (addr : Nat)
    (hp : node.pad_offset = some p) (hp1 : p ≠ -1)
    (hm : node.mode_func = some m) (hm1 : m ≠ -1)
    (hmode : toU32 m &&& not32 MRFLD_PINMODE_MASK = 0)
    (haddr : mrfld_get_bufcfg families (toU32 p) = some addr) :
    (node.prot.isSome = true →
       mrfld_pinctrl_cfg_pin families mem ipc node
         = (ipc, [HwAction.readl addr,
             HwAction.ipcWrite addr
               (mrfld_pinconfig_read_and_update mem addr MRFLD_PINMODE_MASK (toU32 m))]) ∧
       hasWritel (mrfld_pinctrl_cfg_pin families mem ipc node).2 = false) ∧
    (node.prot = none →
       mrfld_pinctrl_cfg_pin families mem ipc node
         = (0, [HwAction.readl addr,
             HwAction.writel addr
               (mrfld_pinconfig_read_and_update mem addr MRFLD_PINMODE_MASK (toU32 m))]) ∧
       hasIpcWrite (mrfld_pinctrl_cfg_pin families mem ipc node).2 = false) ∧
    ofnode_read_bool none = false := by
  obtain ⟨po, mf, pr⟩ := node
  dsimp only at hp hm
  subst hp
  subst hm
  rw [cfg_pin_eq_dispatch families mem ipc p m pr hp1 hm1 hmode]
  refine ⟨fun hpr => ?_, fun hpr => ?_, rfl⟩
  · rw [if_pos hpr]
    unfold mrfld_pinconfig_protected mrfld_pinconfig_get_bufcfg
    rw [haddr]
    exact ⟨rfl, rfl⟩
  · dsimp only at hpr
    subst hpr
    rw [if_neg (by simp)]
    unfold mrfld_pinconfig mrfld_pinconfig_get_bufcfg
    rw [haddr]
    exact ⟨rfl, rfl⟩

/-- C3 witness: on the configured table with an all-zero register file, the
protected entry for pin 101 mode 2 issues only a channel request for address
0 + 7 × 1024 + 0x100 = 7424, and the unprotected entry for pin 37 mode 5
issues only a direct store to address 0 + 3 × 1024 + 0x100 = 3328. -/
theorem c3_write_path_selection_witness :
    mrfld_pinctrl_cfg_pin (mrfld_setup_families 0 mrfld_families) (fun _ => 0) 0
        ⟨some 101, some 2, some ()⟩
      = (0, [HwAction.readl 7424, HwAction.ipcWrite 7424
          (mrfld_pinconfig_read_and_update (fun _ => 0) 7424 MRFLD_PINMODE_MASK (toU32 2))]) ∧
    mrfld_pinctrl_cfg_pin (mrfld_setup_families 0 mrfld_families) (fun _ => 0) 0
        ⟨some 37, some 5, none⟩
      = (0, [HwAction.readl 3328, HwAction.writel 3328
          (mrfld_pinconfig_read_and_update (fun _ => 0) 3328 MRFLD_PINMODE_MASK (toU32 5))]) := by
  constructor
  · exact ((c3_write_path_selection (mrfld_setup_families 0 mrfld_families) (fun _ => 0) 0
      ⟨some 101, some 2, some ()⟩ 101 2 7424 rfl (by decide) rfl (by decide) (by decide)
      (by decide)).1 rfl).1
  · exact ((c3_write_path_selection (mrfld_setup_families 0 mrfld_families) (fun _ => 0) 0
      ⟨some 37, some 5, none⟩ 37 5 3328 rfl (by decide) rfl (by decide) (by decide)
      (by decide)).2.1 rfl).1

/-- C5: an entry whose parsed mode value (other than the -1 absence
sentinel) has a bit set outside 0b111 is rejected with -ENOTSUPP and an
empty effect trace: no register read, no store, no channel request. -/
theorem c5_unsupported_mode (families : List MrfldFamily) (mem : Nat → Nat) (ipc : Int)
    (node : PinNode) (p m : Int)
    (hp : node.pad_offset = some p) (hp1 : p ≠ -1)
    (hm : node.mode_func = some m) (hm1 : m ≠ -1)
    (hmode : toU32 m &&& not32 MRFLD_PINMODE_MASK ≠ 0) :
    mrfld_pinctrl_cfg_pin families mem ipc node = (-ENOTSUPP, []) := by
  obtain ⟨po, mf, pr⟩ := node
  dsimp only at hp hm
  subst hp
  subst hm
  simp only [mrfld_pinctrl_cfg_pin, ofnode_read_s32_default, Option.getD_some]
  rw [if_neg hp1, if_neg hm1, if_pos hmode]

/-- C5 witness: mode 8 (0b1000) on pin 37 is rejected with -ENOTSUPP and no
hardware effect. -/
theorem c5_unsupported_mode_witness :
    mrfld_pinctrl_cfg_pin (mrfld_setup_families 0 mrfld_families) (fun _ => 0) 0
      ⟨some 37, some 8, none⟩ = (-ENOTSUPP, []) :=
  c5_unsupported_mode (mrfld_setup_families 0 mrfld_families) (fun _ => 0) 0
    ⟨some 37, some 8, none⟩ 37 8 rfl (by decide) rfl (by decide) (by decide)

/-- C6: an entry missing the pad-offset property or missing the mode-func
property is rejected with -EINVAL and an empty effect trace — no default is
substituted and neither the registers nor the channel are touched. -/
theorem c6_missing_field (families : List MrfldFamily) (mem : Nat → Nat) (ipc : Int)
    (node : PinNode) (h : node.pad_offset = none ∨ node.mode_func = none) :
    mrfld_pinctrl_cfg_pin families mem ipc node = (-EINVAL, []) := by
  rcases h with h | h
  · simp only [mrfld_pinctrl_cfg_pin, ofnode_read_s32_default, h, Option.getD_none]
    rw [if_pos trivial]
  · simp only [mrfld_pinctrl_cfg_pin, ofnode_read_s32_default, h, Option.getD_none]
    by_cases hpad : node.pad_offset.getD (-1) = -1
    · rw [if_pos hpad]
    · rw [if_neg hpad, if_pos trivial]

/-- C6 witness: an entry with mode 5 but no pad-offset is rejected with
-EINVAL and no hardware effect. -/
theorem c6_missing_field_witness :
    mrfld_pinctrl_cfg_pin (mrfld_setup_families 0 mrfld_families) (fun _ => 0) 0
      ⟨none, some 5, none⟩ = (-EINVAL, []) :=
  c6_missing_field (mrfld_setup_families 0 mrfld_families) (fun _ => 0) 0
    ⟨none, some 5, none⟩ (Or.inl rfl)

/-- C7: the probe pass configures the entries in source order, attempting
every entry (the outcome list is exactly the per-entry map, one outcome per
entry, and an entry's outcome never drops the outcomes of the entries after
it), and the pass as a whole returns 0 regardless of per-entry failures. -/
theorem c7_best_effort_pass (base : Nat) (mem : Nat → Nat) (ipc : Int)
    (nodes : List PinNode) :
    tangier_pinctrl_probe base mem ipc nodes
      = (0, nodes.map
          (mrfld_pinctrl_cfg_pin (mrfld_setup_families base mrfld_families) mem ipc)) ∧
    (tangier_pinctrl_probe base mem ipc nodes).1 = 0 ∧
    (tangier_pinctrl_probe base mem ipc nodes).2.length = nodes.length ∧
    ∀ node rest, (tangier_pinctrl_probe base mem ipc (node :: rest)).2
      = mrfld_pinctrl_cfg_pin (mrfld_setup_families base mrfld_families) mem ipc node
          :: (tangier_pinctrl_probe base mem ipc rest).2 := by
  have hmap : ∀ ns : List PinNode,
      probe_loop (mrfld_setup_families base mrfld_families) mem ipc ns
        = ns.map (mrfld_pinctrl_cfg_pin (mrfld_setup_families base mrfld_families) mem ipc) := by
    intro ns
    induction ns with
    | nil => rfl
    | cons n rest ih => simp only [probe_loop, List.map, ih]
  refine ⟨?_, rfl, ?_, fun node rest => rfl⟩
  · simp only [tangier_pinctrl_probe, hmap]
  · simp only [tangier_pinctrl_probe, hmap, List.length_map]

/-- C9: whenever the pin resolves to a register address, the protected path
and the direct path read the same address and compute the same new 32-bit
value from the same register contents — the value handed to the channel by
the protected path is exactly the value the direct path stores. -/
theorem c9_protected_direct_equivalence (families : List MrfldFamily) (mem : Nat → Nat)
    (ipc : Int) (pin mask bits addr : Nat)
    (haddr : mrfld_get_bufcfg families pin = some addr) :
    (mrfld_pinconfig_protected families mem ipc pin mask bits).2
      = [HwAction.readl addr,
         HwAction.ipcWrite addr (mrfld_pinconfig_read_and_update mem addr mask bits)] ∧
    (mrfld_pinconfig families mem pin mask bits).2
      = [HwAction.readl addr,
         HwAction.writel addr (mrfld_pinconfig_read_and_update mem addr mask bits)] := by
  unfold mrfld_pinconfig_protected mrfld_pinconfig mrfld_pinconfig_get_bufcfg
  rw [haddr]
  exact ⟨rfl, rfl⟩

/-- C9 witness: the equivalence theorem at pin 37 on the configured table
with register contents 6 everywhere: both paths target address 3328 with new
value (6 & ~7) | 5 = 5. -/
theorem c9_protected_direct_equivalence_witness :
    (mrfld_pinconfig_protected (mrfld_setup_families 0 mrfld_families) (fun _ => 6) 0 37 7 5).2
      = [HwAction.readl 3328,
         HwAction.ipcWrite 3328
           (mrfld_pinconfig_read_and_update (fun _ => 6) 3328 7 5)] ∧
    (mrfld_pinconfig (mrfld_setup_families 0 mrfld_families) (fun _ => 6) 37 7 5).2
      = [HwAction.readl 3328,
         HwAction.writel 3328
           (mrfld_pinconfig_read_and_update (fun _ => 6) 3328 7 5)] :=
  c9_protected_direct_equivalence (mrfld_setup_families 0 mrfld_families) (fun _ => 6) 0
    37 7 5 3328 (by decide)

/-- C10: an entry carrying an explicit -1 in pad-offset or mode-func is
indistinguishable from an entry missing that property — the parse uses -1 as
its absence sentinel — and such an entry is rejected with -EINVAL
(InvalidConfig), which is a different error code than -ENOTSUPP
(UnsupportedMode), with no hardware effect. -/
theorem c10_minus_one_sentinel (families : List MrfldFamily) (mem : Nat → Nat) (ipc : Int)
    (mf : Option Int) (p : Int) (pr : Option Unit) :
    mrfld_pinctrl_cfg_pin families mem ipc ⟨some (-1), mf, pr⟩
      = mrfld_pinctrl_cfg_pin families mem ipc ⟨none, mf, pr⟩ ∧
    mrfld_pinctrl_cfg_pin families mem ipc ⟨some (-1), mf, pr⟩ = (-EINVAL, []) ∧
    mrfld_pinctrl_cfg_pin families mem ipc ⟨some p, some (-1), pr⟩
      = mrfld_pinctrl_cfg_pin families mem ipc ⟨some p, none, pr⟩ ∧
    (p ≠ -1 →
      mrfld_pinctrl_cfg_pin families mem ipc ⟨some p, some (-1), pr⟩ = (-EINVAL, [])) ∧
    (-EINVAL : Int) ≠ -ENOTSUPP := by
  refine ⟨?_, ?_, ?_, fun hp1 => ?_, by decide⟩
  · simp only [mrfld_pinctrl_cfg_pin, ofnode_read_s32_default, Option.getD_some,
      Option.getD_none]
  · simp only [mrfld_pinctrl_cfg_pin, ofnode_read_s32_default, Option.getD_some]
    rw [if_pos trivial]
  · simp only [mrfld_pinctrl_cfg_pin, ofnode_read_s32_default, Option.getD_some,
      Option.getD_none]
  · simp only [mrfld_pinctrl_cfg_pin, ofnode_read_s32_default, Option.getD_some]
    rw [if_neg hp1, if_pos trivial]

/-- C10 witness: the sentinel theorem at pin 37 with a protected-less node:
an explicit -1 pad-offset behaves exactly like a missing pad-offset, and an
explicit -1 mode-func on pin 37 is rejected with -EINVAL. -/
theorem c10_minus_one_sentinel_witness :
    mrfld_pinctrl_cfg_pin (mrfld_setup_families 0 mrfld_families) (fun _ => 0) 0
        ⟨some (-1), some 5, none⟩
      = mrfld_pinctrl_cfg_pin (mrfld_setup_families 0 mrfld_families) (fun _ => 0) 0
        ⟨none, some 5, none⟩ ∧
    mrfld_pinctrl_cfg_pin (mrfld_setup_families 0 mrfld_families) (fun _ => 0) 0
        ⟨some 37, some (-1), none⟩ = (-EINVAL, []) :=
  ⟨(c10_minus_one_sentinel (mrfld_setup_families 0 mrfld_families) (fun _ => 0) 0
      (some 5) 37 none).1,
   (c10_minus_one_sentinel (mrfld_setup_families 0 mrfld_families) (fun _ => 0) 0
      (some 5) 37 none).2.2.2.1 (by decide)⟩
